import Mathlib

/-!
Shallow embedding of the Arena Orchestration & Decision Lifecycle subsystem of the
`uteki.open` backend (`uteki/domains/index`): harness serialization, the structured
output parser, the cost estimator, the Arena orchestrator, the decision-approval
position limit, and the robust price-update aggregation.

Conventions: text is modelled as `List Char`; Python values that are only ever
interpolated into f-strings are modelled by their rendered text; numbers that take
part in arithmetic are modelled as `Nat`, `Int` or `ℚ`; fallible code returns
`Except`/`Option`. Wall-clock fields (latency) are not modelled.
-/

abbrev Str := List Char

def strOf (s : String) : Str := s.data

/-- Association-list lookup, first match wins (models Python `dict` access). -/
def lookupKey {α : Type} : List (Str × α) → Str → Option α
  | [], _ => none
  | (k, v) :: rest, key => if k = key then some v else lookupKey rest key

/-- Python `dict.__setitem__`: overwrite in place when the key exists, else append
(Python dicts keep the original insertion position on overwrite). -/
def setItem {α : Type} : List (Str × α) → Str → α → List (Str × α)
  | [], key, v => [(key, v)]
  | (k, w) :: rest, key, v =>
      if k = key then (k, v) :: rest else (k, w) :: setItem rest key v

/-- Joining a list of lines with a newline models `"\n".join(lines)`. -/
def joinLines (ls : List Str) : Str := List.intercalate (strOf "\n") ls

/-! ## DecisionHarness data

The harness attributes are exactly those `_serialize_harness` and `run` read
(the SQLAlchemy model module itself is outside the service code). Fields only
ever rendered into the prompt are carried as their rendered text. An `Option`
field models a possibly-missing / falsy dictionary entry, matching the
`dict.get(..., default)` and truthiness tests used by `_serialize_harness`. -/

structure Position where
  symbol : Option Str
  quantity : Option Str
deriving DecidableEq, Repr

structure AccountState where
  cash : Option Str
  total : Option Str
  positions : List Position
deriving DecidableEq, Repr

structure MemorySummary where
  recent_decisions : List Str
  recent_reflection : Option Str
  experiences : List Str
deriving DecidableEq, Repr

structure TaskSpec where
  type : Option Str
  budget : Option Str
  constraints : Option Str
deriving DecidableEq, Repr

structure DecisionHarness where
  created_at : Option Str
  harness_type : Str
  market_snapshot : Option (List (Str × List (Str × Str)))
  account_state : Option AccountState
  memory_summary : Option MemorySummary
  task : Option TaskSpec
  prompt_version_id : Str
deriving DecidableEq, Repr

/-- Snapshot field access `data.get(key, "N/A")`. -/
def getField (data : List (Str × Str)) (k : String) : Str :=
  (lookupKey data (strOf k)).getD (strOf "N/A")

/-- One market-snapshot line of `_serialize_harness`. -/
def snapshotLine (sym : Str) (data : List (Str × Str)) : Str :=
  sym ++ strOf ": 价格=$" ++ getField data "price" ++ strOf " | PE=" ++ getField data "pe_ratio"
      ++ strOf " | MA50=" ++ getField data "ma50" ++ strOf " | RSI=" ++ getField data "rsi"

/-- One position line of `_serialize_harness`. -/
def positionLine (p : Position) : Str :=
  strOf "持仓: " ++ p.symbol.getD (strOf "?") ++ strOf " " ++ p.quantity.getD (strOf "0")
    ++ strOf "股"

/-- `ArenaService._serialize_harness`: renders a harness to the user prompt, field
by field in the source's order (date, harness type, market snapshot, account,
memory, task), joined by newlines. -/
def serialize_harness (h : DecisionHarness) : Str :=
  let lines : List Str :=
    [strOf "日期: " ++ h.created_at.getD (strOf "unknown"),
     strOf "决策类型: " ++ h.harness_type,
     strOf "",
     strOf "=== 市场数据快照 ==="]
    ++ (h.market_snapshot.getD []).map (fun p => snapshotLine p.1 p.2)
    ++ [strOf "", strOf "=== 账户状态 ==="]
    ++ (let account := h.account_state.getD ⟨none, none, []⟩
        [strOf "现金: $" ++ account.cash.getD (strOf "0"),
         strOf "总资产: $" ++ account.total.getD (strOf "0")]
        ++ account.positions.map positionLine)
    ++ [strOf "", strOf "=== 记忆摘要 ==="]
    ++ (let memory := h.memory_summary.getD ⟨[], none, []⟩
        memory.recent_decisions.map (fun d => strOf "近期决策: " ++ d.take 100)
        ++ (match memory.recent_reflection with
            | some r => [strOf "近期反思: " ++ r.take 100]
            | none => [])
        ++ memory.experiences.map (fun e => strOf "经验: " ++ e.take 80))
    ++ [strOf "", strOf "=== 任务 ==="]
    ++ (let task := h.task.getD ⟨none, none, none⟩
        [strOf "类型: " ++ task.type.getD (strOf "unknown")]
        ++ (match task.budget with | some b => [strOf "预算: $" ++ b] | none => [])
        ++ (match task.constraints with | some c => [strOf "约束: " ++ c] | none => []))
  joinLines lines

/-! Spec-side decomposition of the render into the fixed-order blocks named by the
spec: date line, harness-type line, market-snapshot block, account block, memory
block, task block. -/

def dateLine (h : DecisionHarness) : Str :=
  strOf "日期: " ++ h.created_at.getD (strOf "unknown")

def typeLine (h : DecisionHarness) : Str :=
  strOf "决策类型: " ++ h.harness_type

def marketBlock (h : DecisionHarness) : List Str :=
  [strOf "", strOf "=== 市场数据快照 ==="]
    ++ (h.market_snapshot.getD []).map (fun p => snapshotLine p.1 p.2)

def accountBlock (h : DecisionHarness) : List Str :=
  let account := h.account_state.getD ⟨none, none, []⟩
  [strOf "", strOf "=== 账户状态 ===",
   strOf "现金: $" ++ account.cash.getD (strOf "0"),
   strOf "总资产: $" ++ account.total.getD (strOf "0")]
  ++ account.positions.map positionLine

def memoryBlock (h : DecisionHarness) : List Str :=
  let memory := h.memory_summary.getD ⟨[], none, []⟩
  [strOf "", strOf "=== 记忆摘要 ==="]
  ++ memory.recent_decisions.map (fun d => strOf "近期决策: " ++ d.take 100)
  ++ (match memory.recent_reflection with
      | some r => [strOf "近期反思: " ++ r.take 100]
      | none => [])
  ++ memory.experiences.map (fun e => strOf "经验: " ++ e.take 80)

def taskBlock (h : DecisionHarness) : List Str :=
  let task := h.task.getD ⟨none, none, none⟩
  [strOf "", strOf "=== 任务 ===",
   strOf "类型: " ++ task.type.getD (strOf "unknown")]
  ++ (match task.budget with | some b => [strOf "预算: $" ++ b] | none => [])
  ++ (match task.constraints with | some c => [strOf "约束: " ++ c] | none => [])

theorem serialize_harness_blocks (h : DecisionHarness) :
    serialize_harness h =
      joinLines ([dateLine h, typeLine h] ++ marketBlock h ++ accountBlock h
        ++ memoryBlock h ++ taskBlock h) := by
  simp [serialize_harness, dateLine, typeLine, marketBlock, accountBlock, memoryBlock,
    taskBlock]

/-! ## JSON values and `json.loads` (Python standard library, used by the parser)

A JSON value as Python's `json.loads` produces it: a finite number is carried
exactly as the unreduced decimal fraction `num / den` (`den` a power of ten), so
`0.9` is `Json.num 9 10`; the non-finite constants `NaN`/`Infinity`/`-Infinity`
that Python accepts are own constructors; objects keep insertion order with later
duplicate keys overwriting in place (Python `dict` semantics). One approximation:
a surrogate-pair escape (two adjacent backslash-u escapes from the surrogate
blocks) is kept as two code units instead of being combined into one character —
this changes only the content of string values, never whether a parse succeeds
nor whether the value is an object.
Interpreter resource limits (the recursion limit a deeply nested document can
hit) are outside the model. -/

inductive Json where
  | null
  | bool (b : Bool)
  | num (n : Int) (den : Nat)
  | nan
  | inf (neg : Bool)
  | str (s : Str)
  | arr (elems : List Json)
  | obj (fields : List (Str × Json))

/-- JSON whitespace as accepted by `json.loads`. -/
def isJsonWs (c : Char) : Bool := c = ' ' || c = '\t' || c = '\n' || c = '\r'

def skipJsonWs (s : Str) : Str := s.dropWhile isJsonWs

def digitsToNat (s : Str) : Nat := s.foldl (fun acc c => acc * 10 + (c.toNat - 48)) 0

/-- Fractional part `.digits` of a JSON number (a dot must be followed by a digit);
returns the fraction digits. -/
def parseFrac (s : Str) : Option (Str × Str) :=
  match s with
  | '.' :: rest =>
      let d := rest.takeWhile Char.isDigit
      let r := rest.dropWhile Char.isDigit
      if d = [] then none else some (d, r)
  | _ => some ([], s)

/-- Exponent part `[eE][+-]?digits` of a JSON number. -/
def parseExp (s : Str) : Option (Int × Str) :=
  match s with
  | c :: rest =>
      if c = 'e' ∨ c = 'E' then
        let (esign, s2) : Int × Str :=
          match rest with
          | '+' :: r => (1, r)
          | '-' :: r => (-1, r)
          | _ => (1, rest)
        let d := s2.takeWhile Char.isDigit
        let r := s2.dropWhile Char.isDigit
        if d = [] then none else some (esign * (digitsToNat d : Int), r)
      else some (0, c :: rest)
  | [] => some (0, [])

/-- A JSON number `-?(0|[1-9][0-9]*)(\.[0-9]+)?([eE][+-]?[0-9]+)?`, valued as the
exact decimal fraction (numerator, power-of-ten denominator). -/
def parseJsonNumber (s : Str) : Option ((Int × Nat) × Str) :=
  let (neg, s1) : Bool × Str :=
    match s with
    | '-' :: rest => (true, rest)
    | _ => (false, s)
  match s1 with
  | [] => none
  | c :: rest =>
      let intOpt : Option (Nat × Str) :=
        if c = '0' then some (0, rest)
        else if c.isDigit then
          some (digitsToNat ((c :: rest).takeWhile Char.isDigit),
                (c :: rest).dropWhile Char.isDigit)
        else none
      match intOpt with
      | none => none
      | some (ip, r1) =>
          match parseFrac r1 with
          | none => none
          | some (fd, r2) =>
              match parseExp r2 with
              | none => none
              | some (e, r3) =>
                  let mantissa : Nat := ip * 10 ^ fd.length + digitsToNat fd
                  let den0 : Nat := 10 ^ fd.length
                  let (n, d) : Nat × Nat :=
                    if 0 ≤ e then (mantissa * 10 ^ e.toNat, den0)
                    else (mantissa, den0 * 10 ^ (-e).toNat)
                  some ((if neg then -(n : Int) else (n : Int), d), r3)

/-- A single-character JSON string escape. -/
def escChar : Char → Option Char
  | '"' => some '"'
  | '\\' => some '\\'
  | '/' => some '/'
  | 'b' => some (Char.ofNat 8)
  | 'f' => some (Char.ofNat 12)
  | 'n' => some '\n'
  | 'r' => some '\r'
  | 't' => some '\t'
  | _ => none

def isHexDig (c : Char) : Bool :=
  c.isDigit || ('a' ≤ c && c ≤ 'f') || ('A' ≤ c && c ≤ 'F')

def hexVal (c : Char) : Nat :=
  if c.isDigit then c.toNat - 48
  else if 'a' ≤ c ∧ c ≤ 'f' then c.toNat - 87
  else c.toNat - 55

/-- Body of a JSON string after the opening quote; strict mode rejects raw control
characters, `\uXXXX` escapes become the corresponding code point. -/
def parseStringBody : Str → Option (Str × Str)
  | [] => none
  | '"' :: rest => some ([], rest)
  | '\\' :: 'u' :: a :: b :: c :: d :: rest =>
      if isHexDig a && isHexDig b && isHexDig c && isHexDig d then
        let code := ((hexVal a * 16 + hexVal b) * 16 + hexVal c) * 16 + hexVal d
        (parseStringBody rest).map (fun p => (Char.ofNat code :: p.1, p.2))
      else none
  | '\\' :: e :: rest =>
      (match escChar e with
       | some c => (parseStringBody rest).map (fun p => (c :: p.1, p.2))
       | none => none)
  | ['\\'] => none
  | c :: rest =>
      if c.toNat < 32 then none
      else (parseStringBody rest).map (fun p => (c :: p.1, p.2))

/-- Members of a JSON object after `{` (or after a comma), accumulating into a
Python dict via `setItem`; `pv` parses one member value. -/
def parseMembersF (pv : Str → Option (Json × Str)) :
    Nat → Str → List (Str × Json) → Option (List (Str × Json) × Str)
  | 0, _, _ => none
  | fuel + 1, s, acc =>
      match s with
      | '"' :: rest =>
          (match parseStringBody rest with
           | none => none
           | some (key, r1) =>
               match skipJsonWs r1 with
               | ':' :: r2 =>
                   (match pv r2 with
                    | none => none
                    | some (v, r3) =>
                        let acc2 := setItem acc key v
                        match skipJsonWs r3 with
                        | ',' :: r4 => parseMembersF pv fuel (skipJsonWs r4) acc2
                        | '}' :: r4 => some (acc2, r4)
                        | _ => none)
               | _ => none)
      | _ => none

/-- Elements of a JSON array after `[` (or after a comma); `pv` parses one element. -/
def parseElemsF (pv : Str → Option (Json × Str)) :
    Nat → Str → List Json → Option (List Json × Str)
  | 0, _, _ => none
  | fuel + 1, s, acc =>
      match pv s with
      | none => none
      | some (v, r1) =>
          match skipJsonWs r1 with
          | ',' :: r2 => parseElemsF pv fuel r2 (acc ++ [v])
          | ']' :: r2 => some (acc ++ [v], r2)
          | _ => none

/-- A JSON value with leading whitespace skipped (fuel-indexed). -/
def parseValue : Nat → Str → Option (Json × Str)
  | 0, _ => none
  | fuel + 1, s =>
      match skipJsonWs s with
      | '{' :: rest =>
          (match skipJsonWs rest with
           | '}' :: r2 => some (Json.obj [], r2)
           | r1 => (parseMembersF (parseValue fuel) fuel r1 []).map
                     (fun p => (Json.obj p.1, p.2)))
      | '[' :: rest =>
          (match skipJsonWs rest with
           | ']' :: r2 => some (Json.arr [], r2)
           | r1 => (parseElemsF (parseValue fuel) fuel r1 []).map
                     (fun p => (Json.arr p.1, p.2)))
      | '"' :: rest => (parseStringBody rest).map (fun p => (Json.str p.1, p.2))
      | 't' :: 'r' :: 'u' :: 'e' :: r => some (Json.bool true, r)
      | 'f' :: 'a' :: 'l' :: 's' :: 'e' :: r => some (Json.bool false, r)
      | 'n' :: 'u' :: 'l' :: 'l' :: r => some (Json.null, r)
      | 'N' :: 'a' :: 'N' :: r => some (Json.nan, r)
      | 'I' :: 'n' :: 'f' :: 'i' :: 'n' :: 'i' :: 't' :: 'y' :: r =>
          some (Json.inf false, r)
      | '-' :: 'I' :: 'n' :: 'f' :: 'i' :: 'n' :: 'i' :: 't' :: 'y' :: r =>
          some (Json.inf true, r)
      | s1 => (parseJsonNumber s1).map (fun p => (Json.num p.1.1 p.1.2, p.2))

/-- Python `json.loads`: one value, optional surrounding whitespace, nothing after. -/
def jsonLoads (s : Str) : Option Json :=
  match parseValue (2 * s.length + 2) s with
  | some (v, rest) => if skipJsonWs rest = [] then some v else none
  | none => none

/-! ## Regex models for `ArenaService._parse_structured_output`

Each of the three regexes of the source is hand-compiled to a deterministic
scanning function with Python `re.search` leftmost-match semantics. The
character classes `\s` and `\d` and the `re.IGNORECASE` letter sets are the exact
Unicode sets CPython uses (tables below); only `\w` keeps an ASCII core, which is
argued harmless at its definition. Optional quotes (`"?`) never need backtracking
for these patterns because a quote cannot start `action`/`confidence`,
whitespace, `:`/`=`, or a word character, so trying the quote first is
exhaustive. -/

/-- Python regex `\s` on `str` patterns, exactly: the code points CPython's
Unicode whitespace predicate accepts (enumerated from CPython 3.11 /
Unicode 14.0). -/
def isPyWs (c : Char) : Bool :=
  let n := c.toNat
  (0x09 ≤ n && n ≤ 0x0d) || (0x1c ≤ n && n ≤ 0x20) || n = 0x85 || n = 0xa0 ||
  n = 0x1680 || (0x2000 ≤ n && n ≤ 0x200a) || n = 0x2028 || n = 0x2029 ||
  n = 0x202f || n = 0x205f || n = 0x3000

def skipPyWs (s : Str) : Str := s.dropWhile isPyWs

/-- Does a ``` fence open exactly here? -/
def isTicks : Str → Bool
  | '`' :: '`' :: '`' :: _ => true
  | _ => false

/-- Does `\s*``` ` match starting at this position? -/
def closesHere (u : Str) : Bool := isTicks (skipPyWs u)

/-- Lazy group of `` ```json\s*(.*?)\s*``` ``: the shortest chunk after which the
whitespace-then-fence tail matches (none when no closing fence exists). -/
def fenceGroup : Str → Option Str
  | [] => none
  | c :: rest =>
      if closesHere (c :: rest) then some []
      else (fenceGroup rest).map (fun g => c :: g)

/-- `re.search(r'```json\s*(.*?)\s*```', raw, re.DOTALL)`: leftmost position where
the whole pattern matches, returning capture group 1. -/
def fencedJsonGroup : Str → Option Str
  | [] => none
  | c :: rest =>
      if (strOf "```json").isPrefixOf (c :: rest) then
        match fenceGroup (skipPyWs ((c :: rest).drop 7)) with
        | some g => some g
        | none => fencedJsonGroup rest
      else fencedJsonGroup rest

/-- Optional literal quote, `"?`. -/
def skipOptQuote : Str → Str
  | '"' :: rest => rest
  | s => s

/-- One pattern letter under `re.IGNORECASE` on `str` patterns: for each lowercase
ASCII letter of `action`/`confidence`, the set of characters CPython matches is
the ASCII case pair, plus U+0130 (dotted capital I) and U+0131 (dotless i) for
the letter `i` (sets enumerated from CPython 3.11 over all code points). -/
def matchesCI (pat c : Char) : Bool :=
  c = pat || c.toNat = pat.toNat - 32 ||
  (pat = 'i' && (c.toNat = 0x130 || c.toNat = 0x131))

/-- Case-insensitive literal match (pattern given in lowercase), returning the rest. -/
def ciMatch : Str → Str → Option Str
  | [], s => some s
  | _ :: _, [] => none
  | p :: ps, c :: cs => if matchesCI p c then ciMatch ps cs else none

/-- Python regex `\w`, ASCII core. This is the one remaining ASCII approximation:
CPython's `\w` also matches non-ASCII word characters. It is harmless to every
theorem below: the `(\w+)` capture is only stored (uppercased) as the `action`
field and is never converted or indexed, so its extent can only toggle
`partial`/`raw_only` — both inside the status set every statement allows — and
never causes an exception; the concrete-input theorems use ASCII inputs, on which
the classes agree. -/
def isWordChar (c : Char) : Bool := c.isAlphanum || c = '_'

/-- Match `"?action"?\s*[:=]\s*"?(\w+)"?` (case-insensitive) at this position,
returning the uppercased capture. -/
def matchActionAt (s : Str) : Option Str :=
  match ciMatch (strOf "action") (skipOptQuote s) with
  | none => none
  | some s2 =>
      match (skipOptQuote s2).dropWhile isPyWs with
      | c :: s5 =>
          if c = ':' ∨ c = '=' then
            let s7 := skipOptQuote (s5.dropWhile isPyWs)
            let w := s7.takeWhile isWordChar
            if w = [] then none else some (w.map Char.toUpper)
          else none
      | [] => none

/-- `re.search` for the action pattern: leftmost match wins. -/
def searchAction : Str → Option Str
  | [] => none
  | c :: rest =>
      match matchActionAt (c :: rest) with
      | some w => some w
      | none => searchAction rest

/-- The Unicode decimal-digit (Nd) ranges that Python regex `\d` matches on `str`
patterns, enumerated from CPython 3.11 / Unicode 14.0. Every range has length a
multiple of ten and the digit value of a code point is its offset from the range
start modulo ten (checked against `unicodedata.decimal` over the whole table). -/
def ndRanges : List (Nat × Nat) :=
  [(0x30, 0x39), (0x660, 0x669), (0x6f0, 0x6f9), (0x7c0, 0x7c9), (0x966, 0x96f),
   (0x9e6, 0x9ef), (0xa66, 0xa6f), (0xae6, 0xaef), (0xb66, 0xb6f), (0xbe6, 0xbef),
   (0xc66, 0xc6f), (0xce6, 0xcef), (0xd66, 0xd6f), (0xde6, 0xdef), (0xe50, 0xe59),
   (0xed0, 0xed9), (0xf20, 0xf29), (0x1040, 0x1049), (0x1090, 0x1099),
   (0x17e0, 0x17e9), (0x1810, 0x1819), (0x1946, 0x194f), (0x19d0, 0x19d9),
   (0x1a80, 0x1a89), (0x1a90, 0x1a99), (0x1b50, 0x1b59), (0x1bb0, 0x1bb9),
   (0x1c40, 0x1c49), (0x1c50, 0x1c59), (0xa620, 0xa629), (0xa8d0, 0xa8d9),
   (0xa900, 0xa909), (0xa9d0, 0xa9d9), (0xa9f0, 0xa9f9), (0xaa50, 0xaa59),
   (0xabf0, 0xabf9), (0xff10, 0xff19), (0x104a0, 0x104a9), (0x10d30, 0x10d39),
   (0x11066, 0x1106f), (0x110f0, 0x110f9), (0x11136, 0x1113f), (0x111d0, 0x111d9),
   (0x112f0, 0x112f9), (0x11450, 0x11459), (0x114d0, 0x114d9), (0x11650, 0x11659),
   (0x116c0, 0x116c9), (0x11730, 0x11739), (0x118e0, 0x118e9), (0x11950, 0x11959),
   (0x11c50, 0x11c59), (0x11d50, 0x11d59), (0x11da0, 0x11da9), (0x16a60, 0x16a69),
   (0x16ac0, 0x16ac9), (0x16b50, 0x16b59), (0x1d7ce, 0x1d7ff), (0x1e140, 0x1e149),
   (0x1e2f0, 0x1e2f9), (0x1e950, 0x1e959), (0x1fbf0, 0x1fbf9)]

/-- Python regex `\d` on `str` patterns (any Unicode decimal digit). -/
def isPyDigit (c : Char) : Bool :=
  ndRanges.any (fun r => r.1 ≤ c.toNat && c.toNat ≤ r.2)

/-- Decimal value of a Unicode digit (`unicodedata.decimal`), as `float()`'s
digit-to-ASCII transform values it. -/
def pyDigitVal (c : Char) : Nat :=
  match ndRanges.find? (fun r => r.1 ≤ c.toNat && c.toNat ≤ r.2) with
  | some r => (c.toNat - r.1) % 10
  | none => 0

/-- Value of a run of Unicode digits, as Python `int`/`float` conversion reads it
(each digit contributes its decimal value). -/
def digitsToNatPy (s : Str) : Nat := s.foldl (fun acc c => acc * 10 + pyDigitVal c) 0

/-- The character class `[\d.]` of the confidence pattern. -/
def isDigitOrDot (c : Char) : Bool := isPyDigit c || c = '.'

/-- Match `"?confidence"?\s*[:=]\s*([\d.]+)` (case-insensitive) at this position,
returning the raw capture. -/
def matchConfidenceAt (s : Str) : Option Str :=
  match ciMatch (strOf "confidence") (skipOptQuote s) with
  | none => none
  | some s2 =>
      match (skipOptQuote s2).dropWhile isPyWs with
      | c :: s5 =>
          if c = ':' ∨ c = '=' then
            let w := (s5.dropWhile isPyWs).takeWhile isDigitOrDot
            if w = [] then none else some w
          else none
      | [] => none

/-- `re.search` for the confidence pattern: leftmost match wins. -/
def searchConfidence : Str → Option Str
  | [] => none
  | c :: rest =>
      match matchConfidenceAt (c :: rest) with
      | some w => some w
      | none => searchConfidence rest

/-- Python `float()` restricted to the strings `[\d.]+` can capture: CPython first
maps every Unicode decimal digit to its ASCII digit, so the conversion succeeds
exactly when there is at most one dot and at least one digit, valued as an exact
decimal fraction (numerator, power-of-ten denominator). -/
def pyFloatDigitsDots (s : Str) : Option (Int × Nat) :=
  if s.count '.' = 0 then
    if s = [] then none else some ((digitsToNatPy s : Int), 1)
  else if s.count '.' = 1 then
    let ip := s.takeWhile (fun c => c ≠ '.')
    let fp := (s.dropWhile (fun c => c ≠ '.')).drop 1
    if ip = [] ∧ fp = [] then none
    else some ((digitsToNatPy ip * 10 ^ fp.length + digitsToNatPy fp : Int),
               10 ^ fp.length)
  else none

/-! ## `ArenaService._parse_structured_output`

The function either returns the Python dict it built (`Except.ok`) or raises an
uncaught exception (`Except.error`): a `TypeError` when a successful JSON parse
yields a non-dict (the `parsed["_parse_status"] = ...` item assignment), or a
`ValueError` when `float()` is applied to a capture such as `1.2.3`. Only
`json.JSONDecodeError`/`ValueError` from the JSON tier are caught by the source. -/

inductive PyErr where
  | typeError
  | valueError
deriving DecidableEq, Repr

/-- Tier 2 and tier 3 of the parser: the regex fallback, then raw-only. -/
def regexFallback (raw : Str) : Except PyErr (List (Str × Json)) :=
  let result : List (Str × Json) :=
    match searchAction raw with
    | some a => [(strOf "action", Json.str a)]
    | none => []
  match searchConfidence raw with
  | some t =>
      match pyFloatDigitsDots t with
      | some q =>
          Except.ok (setItem (setItem result (strOf "confidence") (Json.num q.1 q.2))
            (strOf "_parse_status") (Json.str (strOf "partial")))
      | none => Except.error PyErr.valueError
  | none =>
      match result with
      | [] => Except.ok [(strOf "_parse_status", Json.str (strOf "raw_only"))]
      | _ => Except.ok (setItem result (strOf "_parse_status") (Json.str (strOf "partial")))

/-- `ArenaService._parse_structured_output`: fenced JSON block first, else the whole
text as JSON, else the regex fallback; a fenced block that fails to parse jumps to
the fallback (its exception skips the direct parse). -/
def parse_structured_output (raw : Str) : Except PyErr (List (Str × Json)) :=
  match fencedJsonGroup raw with
  | some g =>
      match jsonLoads g with
      | some (Json.obj fields) =>
          Except.ok (setItem fields (strOf "_parse_status") (Json.str (strOf "structured")))
      | some _ => Except.error PyErr.typeError
      | none => regexFallback raw
  | none =>
      match jsonLoads raw with
      | some (Json.obj fields) =>
          Except.ok (setItem fields (strOf "_parse_status") (Json.str (strOf "structured")))
      | some _ => Except.error PyErr.typeError
      | none => regexFallback raw

/-- First tier of the parser: the JSON text actually handed to `json.loads` (the
fenced block when one is found, else the whole text), and its parse result. When a
found fenced block fails to parse, the raised `JSONDecodeError` skips the direct
parse, which this definition mirrors. -/
def tier1Json (raw : Str) : Option Json :=
  match fencedJsonGroup raw with
  | some g => jsonLoads g
  | none => jsonLoads raw

def Json.isObj : Json → Bool
  | Json.obj _ => true
  | _ => false

theorem parse_structured_output_eq_tier1 (raw : Str) :
    parse_structured_output raw =
      match tier1Json raw with
      | some (Json.obj fields) =>
          Except.ok (setItem fields (strOf "_parse_status") (Json.str (strOf "structured")))
      | some _ => Except.error PyErr.typeError
      | none => regexFallback raw := by
  unfold parse_structured_output tier1Json
  cases fencedJsonGroup raw <;> rfl

theorem lookupKey_setItem_self {α : Type} (m : List (Str × α)) (k : Str) (v : α) :
    lookupKey (setItem m k v) k = some v := by
  induction m with
  | nil => simp [setItem, lookupKey]
  | cons hd tl ih =>
      obtain ⟨k0, v0⟩ := hd
      by_cases hk : k0 = k
      · simp [setItem, hk, lookupKey]
      · simp [setItem, hk, lookupKey, ih]

/-- C2: harness serialization is deterministic — the render is a pure function of
the harness fields (equal harnesses give byte-identical text), and the text is the
fixed-order concatenation date line, harness-type line, market-snapshot block,
account block, memory block, task block. -/
theorem serialize_harness_deterministic (h1 h2 : DecisionHarness) (hEq : h1 = h2) :
    serialize_harness h1 = serialize_harness h2 ∧
    serialize_harness h1 =
      joinLines ([dateLine h1, typeLine h1] ++ marketBlock h1 ++ accountBlock h1
        ++ memoryBlock h1 ++ taskBlock h1) :=
  ⟨hEq ▸ rfl, serialize_harness_blocks h1⟩

theorem serialize_harness_deterministic_witness :
    (let h : DecisionHarness :=
      { created_at := some (strOf "2025-01-01T00:00:00"),
        harness_type := strOf "periodic_contribution",
        market_snapshot := some [(strOf "SPY", [(strOf "price", strOf "600")])],
        account_state := some ⟨some (strOf "100"), some (strOf "700"),
          [⟨some (strOf "SPY"), some (strOf "1")⟩]⟩,
        memory_summary := some ⟨[strOf "bought SPY"], none, []⟩,
        task := some ⟨some (strOf "periodic_contribution"), some (strOf "100"), none⟩,
        prompt_version_id := strOf "pv1" }
     serialize_harness h = serialize_harness h ∧
       serialize_harness h =
         joinLines ([dateLine h, typeLine h] ++ marketBlock h ++ accountBlock h
           ++ memoryBlock h ++ taskBlock h)) :=
  serialize_harness_deterministic _ _ rfl

/-- C4 (amended) — the parser returns a result with status among `structured`,
`partial`, `raw_only` and raises nothing, for every raw text such that (a) the
JSON tier does not succeed with a non-object value (otherwise the item assignment
`parsed["_parse_status"] = ...` raises an uncaught `TypeError`), and (b) any
captured confidence token is a valid float literal (otherwise `float()` raises an
uncaught `ValueError`). -/
theorem parse_structured_output_total (raw : Str)
    (h1 : ∀ j, tier1Json raw = some j → j.isObj = true)
    (h2 : ∀ t, searchConfidence raw = some t → (pyFloatDigitsDots t).isSome = true) :
    ∃ fields, parse_structured_output raw = Except.ok fields ∧
      (lookupKey fields (strOf "_parse_status") = some (Json.str (strOf "structured")) ∨
       lookupKey fields (strOf "_parse_status") = some (Json.str (strOf "partial")) ∨
       lookupKey fields (strOf "_parse_status") = some (Json.str (strOf "raw_only"))) := by
  rw [parse_structured_output_eq_tier1]
  cases ht : tier1Json raw with
  | some j =>
      have hobj := h1 j ht
      cases j with
      | obj fields =>
          exact ⟨_, rfl, Or.inl (lookupKey_setItem_self fields _ _)⟩
      | null => simp [Json.isObj] at hobj
      | bool b => simp [Json.isObj] at hobj
      | num n d => simp [Json.isObj] at hobj
      | nan => simp [Json.isObj] at hobj
      | inf b => simp [Json.isObj] at hobj
      | str s => simp [Json.isObj] at hobj
      | arr xs => simp [Json.isObj] at hobj
  | none =>
      unfold regexFallback
      cases hc : searchConfidence raw with
      | some t =>
          have hf := h2 t hc
          cases hq : pyFloatDigitsDots t with
          | some q =>
              dsimp only
              rw [hq]
              cases searchAction raw <;>
                exact ⟨_, rfl, Or.inr (Or.inl (lookupKey_setItem_self _ _ _))⟩
          | none => rw [hq] at hf; simp [Option.isSome] at hf
      | none =>
          cases searchAction raw with
          | some a =>
              exact ⟨_, rfl, Or.inr (Or.inl (lookupKey_setItem_self _ _ _))⟩
          | none =>
              exact ⟨_, rfl, Or.inr (Or.inr rfl)⟩

theorem parse_structured_output_total_witness :
    (∀ j, tier1Json (strOf "Action: buy, confidence=0.7") = some j → j.isObj = true) ∧
    (∃ fields,
      parse_structured_output (strOf "Action: buy, confidence=0.7") = Except.ok fields ∧
      (lookupKey fields (strOf "_parse_status") = some (Json.str (strOf "structured")) ∨
       lookupKey fields (strOf "_parse_status") = some (Json.str (strOf "partial")) ∨
       lookupKey fields (strOf "_parse_status") = some (Json.str (strOf "raw_only")))) :=
  ⟨fun j hj => Option.noConfusion
     ((show tier1Json (strOf "Action: buy, confidence=0.7") = none from rfl) ▸ hj),
   parse_structured_output_total _
     (fun j hj => Option.noConfusion
       ((show tier1Json (strOf "Action: buy, confidence=0.7") = none from rfl) ▸ hj))
     (fun t ht => by
        rw [show searchConfidence (strOf "Action: buy, confidence=0.7")
              = some (strOf "0.7") from rfl] at ht
        injection ht with h
        rw [← h]
        rfl)⟩

/-- C4 counterexample: `[1, 2]` is valid JSON, so the first tier succeeds with a
list; the Python item assignment `parsed["_parse_status"] = "structured"` then
raises an uncaught `TypeError` — the parser does not return any parse status. -/
theorem parse_structured_output_raises_on_json_list :
    parse_structured_output (strOf "[1, 2]") = Except.error PyErr.typeError := rfl

/-- The embedding reproduces CPython's raising behaviour on non-ASCII and
non-finite inputs as well: a confidence capture of Unicode decimal digits with
two dots raises `ValueError` from `float()`; U+0130 in `confİdence` still
matches the pattern under `re.IGNORECASE`, so the invalid capture `1.2.3` is
reached and raises; and the whole text `NaN` is JSON Python accepts as a float,
so the item assignment raises `TypeError` (each behaviour checked against
CPython 3.11). -/
theorem parse_structured_output_unicode_raises :
    parse_structured_output (strOf "confidence: ١.٢.٣") = Except.error PyErr.valueError ∧
    parse_structured_output (strOf "confİdence: 1.2.3") = Except.error PyErr.valueError ∧
    parse_structured_output (strOf "NaN") = Except.error PyErr.typeError :=
  ⟨rfl, rfl, rfl⟩

/-- C5: the three spec examples of the structured output parser — a fenced JSON
object parses as `structured` with action HOLD and confidence 0.9; the plain text
`Action: buy, confidence=0.7` degrades to `partial` with action uppercased to BUY
and confidence 0.7; prose degrades to `raw_only` with no structured fields. -/
theorem parse_structured_output_spec_examples :
    parse_structured_output (strOf "```json \x7b\"action\":\"HOLD\",\"confidence\":0.9\x7d ```") =
      Except.ok [(strOf "action", Json.str (strOf "HOLD")),
                 (strOf "confidence", Json.num 9 10),
                 (strOf "_parse_status", Json.str (strOf "structured"))] ∧
    parse_structured_output (strOf "Action: buy, confidence=0.7") =
      Except.ok [(strOf "action", Json.str (strOf "BUY")),
                 (strOf "confidence", Json.num 7 10),
                 (strOf "_parse_status", Json.str (strOf "partial"))] ∧
    parse_structured_output (strOf "The market looks uncertain today.") =
      Except.ok [(strOf "_parse_status", Json.str (strOf "raw_only"))] :=
  ⟨rfl, rfl, rfl⟩

/-! ## `ArenaService._estimate_cost`

Python's `round(x, 4)` rounds half to even; it is modelled exactly over ℚ. -/

/-- Round half to even on ℚ (Python `round` to integer). -/
def roundHalfEven (q : ℚ) : ℤ :=
  if Int.fract q = 1/2 then (if Even ⌊q⌋ then ⌊q⌋ else ⌊q⌋ + 1) else round q

theorem floor_le_roundHalfEven (q : ℚ) : ⌊q⌋ ≤ roundHalfEven q := by
  unfold roundHalfEven
  split
  · split
    · exact le_refl _
    · exact le_of_lt (lt_add_one _)
  · rw [round_eq]
    exact Int.floor_mono (by linarith)

theorem roundHalfEven_le_floor_add_one (q : ℚ) : roundHalfEven q ≤ ⌊q⌋ + 1 := by
  unfold roundHalfEven
  split
  · split
    · exact le_of_lt (lt_add_one _)
    · exact le_refl _
  · rw [round_eq]
    calc ⌊q + 1/2⌋ ≤ ⌊q + 1⌋ := Int.floor_mono (by linarith)
      _ = ⌊q⌋ + 1 := by exact_mod_cast Int.floor_add_int q 1

theorem roundHalfEven_of_fract_lt (q : ℚ) (h : Int.fract q < 1/2) :
    roundHalfEven q = ⌊q⌋ := by
  unfold roundHalfEven
  rw [if_neg (ne_of_lt h), round_eq]
  apply Int.floor_eq_iff.mpr
  have hfr : q - ⌊q⌋ < 1/2 := by rw [Int.self_sub_floor]; exact h
  have hfl := Int.floor_le q
  constructor
  · linarith
  · linarith

theorem roundHalfEven_of_lt_fract (q : ℚ) (h : 1/2 < Int.fract q) :
    roundHalfEven q = ⌊q⌋ + 1 := by
  unfold roundHalfEven
  rw [if_neg (ne_of_gt h), round_eq]
  apply Int.floor_eq_iff.mpr
  have h1 : 1/2 < q - ⌊q⌋ := by rw [Int.self_sub_floor]; exact h
  have h2 : q - ⌊q⌋ < 1 := by rw [Int.self_sub_floor]; exact Int.fract_lt_one q
  constructor
  · push_cast; linarith
  · push_cast; linarith

theorem roundHalfEven_mono {x y : ℚ} (h : x ≤ y) :
    roundHalfEven x ≤ roundHalfEven y := by
  rcases lt_or_le ⌊x⌋ ⌊y⌋ with hf | hf
  · calc roundHalfEven x ≤ ⌊x⌋ + 1 := roundHalfEven_le_floor_add_one x
      _ ≤ ⌊y⌋ := hf
      _ ≤ roundHalfEven y := floor_le_roundHalfEven y
  · have hfe : ⌊x⌋ = ⌊y⌋ := le_antisymm (Int.floor_mono h) hf
    have hfr : Int.fract x ≤ Int.fract y := by
      rw [← Int.self_sub_floor, ← Int.self_sub_floor, hfe]
      have : (⌊y⌋ : ℚ) ≤ ⌊y⌋ := le_refl _
      linarith
    rcases lt_trichotomy (Int.fract x) (1/2 : ℚ) with hx | hx | hx
    · rw [roundHalfEven_of_fract_lt x hx, hfe]
      exact floor_le_roundHalfEven y
    · rcases eq_or_lt_of_le hfr with hy | hy
      · have hxy : x = y := by
          have hx' := Int.floor_add_fract x
          have hy' := Int.floor_add_fract y
          rw [hfe] at hx'
          rw [← hy] at hy'
          linarith
        rw [hxy]
      · have hy2 : 1/2 < Int.fract y := hx ▸ hy
        rw [roundHalfEven_of_lt_fract y hy2, ← hfe]
        exact roundHalfEven_le_floor_add_one x
    · have hy2 : 1/2 < Int.fract y := lt_of_lt_of_le hx hfr
      rw [roundHalfEven_of_lt_fract x hx, roundHalfEven_of_lt_fract y hy2, hfe]

/-- Python `round(q, 4)` over ℚ. -/
def pyRound4 (q : ℚ) : ℚ := (roundHalfEven (q * 10000) : ℚ) / 10000

theorem pyRound4_mono {x y : ℚ} (h : x ≤ y) : pyRound4 x ≤ pyRound4 y := by
  unfold pyRound4
  have h1 : x * 10000 ≤ y * 10000 := by nlinarith
  have h2 : ((roundHalfEven (x * 10000) : ℤ) : ℚ) ≤ ((roundHalfEven (y * 10000) : ℤ) : ℚ) :=
    Int.cast_le.mpr (roundHalfEven_mono h1)
  exact (div_le_div_right (by norm_num)).mpr h2

/-- Static per-provider rate table of `_estimate_cost` (USD per 1M tokens), with the
default fallback rate for unlisted providers. -/
def rateFor (provider : Str) : ℚ × ℚ :=
  if provider = strOf "anthropic" then (3.0, 15.0)
  else if provider = strOf "openai" then (2.5, 10.0)
  else if provider = strOf "deepseek" then (0.14, 0.28)
  else if provider = strOf "google" then (0.075, 0.30)
  else if provider = strOf "qwen" then (0.8, 2.0)
  else if provider = strOf "minimax" then (1.0, 3.0)
  else (1.0, 5.0)

/-- `ArenaService._estimate_cost` (the `model` argument is accepted and ignored,
as in the source). -/
def estimate_cost (provider model : Str) (input_tokens output_tokens : Nat) : ℚ :=
  let rate := rateFor provider
  pyRound4 ((input_tokens * rate.1 + output_tokens * rate.2) / 1000000)

theorem rateFor_nonneg (p : Str) : 0 ≤ (rateFor p).1 ∧ 0 ≤ (rateFor p).2 := by
  unfold rateFor
  split_ifs <;> constructor <;> norm_num

theorem estimate_cost_mono_out (p m : Str) (i : Nat) {o o' : Nat} (h : o ≤ o') :
    estimate_cost p m i o ≤ estimate_cost p m i o' := by
  obtain ⟨hin, hout⟩ := rateFor_nonneg p
  unfold estimate_cost
  apply pyRound4_mono
  apply (div_le_div_right (by norm_num)).mpr
  have hc : (o : ℚ) ≤ o' := by exact_mod_cast h
  nlinarith

theorem estimate_cost_mono_in (p m : Str) {i i' : Nat} (o : Nat) (h : i ≤ i') :
    estimate_cost p m i o ≤ estimate_cost p m i' o := by
  obtain ⟨hin, hout⟩ := rateFor_nonneg p
  unfold estimate_cost
  apply pyRound4_mono
  apply (div_le_div_right (by norm_num)).mpr
  have hc : (i : ℚ) ≤ i' := by exact_mod_cast h
  nlinarith

/-- C9: the cost estimate is `(inputTokens × inputRate + outputTokens ×
outputRate) / 1,000,000` (rounded to 4 decimals, default fallback rates for
unlisted providers) and is monotone: increasing either token count — in
particular doubling the output tokens — never decreases the estimate. -/
theorem estimate_cost_monotone (provider model : Str) :
    (∀ i o : Nat, estimate_cost provider model i o =
        pyRound4 (((i : ℚ) * (rateFor provider).1 + (o : ℚ) * (rateFor provider).2)
          / 1000000)) ∧
    (∀ i o o' : Nat, o ≤ o' →
        estimate_cost provider model i o ≤ estimate_cost provider model i o') ∧
    (∀ i i' o : Nat, i ≤ i' →
        estimate_cost provider model i o ≤ estimate_cost provider model i' o) ∧
    (∀ i o : Nat, estimate_cost provider model i o ≤
        estimate_cost provider model i (2 * o)) :=
  ⟨fun _ _ => rfl,
   fun i _ _ h => estimate_cost_mono_out provider model i h,
   fun _ _ o h => estimate_cost_mono_in provider model o h,
   fun i o => estimate_cost_mono_out provider model i (by omega)⟩

theorem estimate_cost_monotone_witness :
    (100 : Nat) ≤ 200 ∧
    estimate_cost (strOf "anthropic") (strOf "claude-sonnet-4-20250514") 1000 100 ≤
      estimate_cost (strOf "anthropic") (strOf "claude-sonnet-4-20250514") 1000 200 :=
  ⟨by decide,
   (estimate_cost_monotone (strOf "anthropic") (strOf "claude-sonnet-4-20250514")).2.1
     1000 100 200 (by decide)⟩

/-! ## Arena orchestrator (`ArenaService.run` / `ArenaService._call_model`)

The adapter call of one model is abstracted by an `AdapterOutcome`: the collected
response text; a timeout of `asyncio.wait_for` (any text produced after the
deadline is discarded); or an exception raised by the adapter, carried as its
message. Persistence is modelled by the returned record values themselves; wall
clock (latency) is not modelled. The `ModelIO` record carries the constructor
fields that `_call_model` sets. -/

structure ModelCfg where
  provider : Str
  model : Str
  api_key_attr : Str
deriving DecidableEq, Repr

/-- The fixed provider/model catalog `ARENA_MODELS`. -/
def ARENA_MODELS : List ModelCfg :=
  [⟨strOf "anthropic", strOf "claude-sonnet-4-20250514", strOf "anthropic_api_key"⟩,
   ⟨strOf "openai", strOf "gpt-4o", strOf "openai_api_key"⟩,
   ⟨strOf "deepseek", strOf "deepseek-chat", strOf "deepseek_api_key"⟩,
   ⟨strOf "google", strOf "gemini-2.5-pro-thinking", strOf "google_api_key"⟩,
   ⟨strOf "qwen", strOf "qwen-plus", strOf "dashscope_api_key"⟩,
   ⟨strOf "minimax", strOf "MiniMax-Text-01", strOf "minimax_api_key"⟩]

/-- Model timeout, seconds (`MODEL_TIMEOUT = 60`). -/
def MODEL_TIMEOUT : Nat := 60

/-- Settings are the credential attributes present on the `settings` object; the
filter keeps catalog entries whose `getattr(settings, attr, None)` is truthy
(present and non-empty). -/
def available_models (settings : List (Str × Str)) : List ModelCfg :=
  ARENA_MODELS.filter (fun m =>
    match lookupKey settings m.api_key_attr with
    | some v => !v.isEmpty
    | none => false)

inductive AdapterOutcome where
  | success (text : Str)
  | timeout (lateText : Str)
  | raised (message : Str)

structure ModelIO where
  harness_id : Str
  model_provider : Str
  model_name : Str
  input_prompt : Str
  input_token_count : Option Nat
  output_raw : Option Str
  output_structured : Option (List (Str × Json))
  output_token_count : Option Nat
  cost_usd : Option ℚ
  parse_status : Option Json
  status : Str
  error_message : Option Str

/-- Python `dict.pop`: drop the (unique) entry with the given key. -/
def removeKey {α : Type} : List (Str × α) → Str → List (Str × α)
  | [], _ => []
  | (k, v) :: rest, key => if k = key then rest else (k, v) :: removeKey rest key

/-- Comparison `parse_status == "raw_only"` on the popped value. -/
def isRawOnlyStatus : Json → Bool
  | Json.str s => if s = strOf "raw_only" then true else false
  | _ => false

/-- Abbreviated `str(e)` of the uncaught parser exceptions. -/
def pyErrStr : PyErr → Str
  | PyErr.typeError => strOf "TypeError"
  | PyErr.valueError => strOf "ValueError"

def natDecimal (n : Nat) : Str := (Nat.repr n).data

/-- The combined prompt `[System Prompt]\n… \n\n[Decision Harness]\n…`. -/
def full_input_of (system_prompt user_prompt : Str) : Str :=
  strOf "[System Prompt]\n" ++ system_prompt ++ strOf "\n\n[Decision Harness]\n" ++ user_prompt

/-- `ArenaService._call_model`: one finalized invocation record per outcome. A
successful adapter call still finalizes as `error` when the parser raises (the
`except Exception` handler); a timeout finalizes as `timeout` with the timeout
duration in the message; an adapter exception finalizes as `error`. -/
def call_model (cfg : ModelCfg) (system_prompt user_prompt harness_id : Str)
    (outcome : AdapterOutcome) : ModelIO :=
  let full_input := full_input_of system_prompt user_prompt
  match outcome with
  | AdapterOutcome.success output_raw =>
      (match parse_structured_output output_raw with
       | Except.ok fields =>
           let parse_status := (lookupKey fields (strOf "_parse_status")).getD
             (Json.str (strOf "raw_only"))
           let output_structured := removeKey fields (strOf "_parse_status")
           let input_tokens := full_input.length / 4
           let output_tokens := output_raw.length / 4
           { harness_id := harness_id
             model_provider := cfg.provider
             model_name := cfg.model
             input_prompt := full_input
             input_token_count := some input_tokens
             output_raw := some output_raw
             output_structured :=
               if isRawOnlyStatus parse_status then none else some output_structured
             output_token_count := some output_tokens
             cost_usd := some (estimate_cost cfg.provider cfg.model input_tokens output_tokens)
             parse_status := some parse_status
             status := strOf "success"
             error_message := none }
       | Except.error e =>
           { harness_id := harness_id
             model_provider := cfg.provider
             model_name := cfg.model
             input_prompt := full_input
             input_token_count := none
             output_raw := none
             output_structured := none
             output_token_count := none
             cost_usd := none
             parse_status := none
             status := strOf "error"
             error_message := some (pyErrStr e) })
  | AdapterOutcome.timeout _ =>
      { harness_id := harness_id
        model_provider := cfg.provider
        model_name := cfg.model
        input_prompt := full_input
        input_token_count := none
        output_raw := none
        output_structured := none
        output_token_count := none
        cost_usd := none
        parse_status := none
        status := strOf "timeout"
        error_message := some (strOf "Timeout after " ++ natDecimal MODEL_TIMEOUT ++ strOf "s") }
  | AdapterOutcome.raised msg =>
      { harness_id := harness_id
        model_provider := cfg.provider
        model_name := cfg.model
        input_prompt := full_input
        input_token_count := none
        output_raw := none
        output_structured := none
        output_token_count := none
        cost_usd := none
        parse_status := none
        status := strOf "error"
        error_message := some msg }

/-- `ArenaService.run`: load the harness (raising `Harness not found` when absent),
load the prompt version, serialize the harness once, filter the catalog by
configured credentials, return `[]` when none remain, else one record per
candidate model, each depending only on its own adapter outcome. -/
def ArenaService.run (harnesses : List (Str × DecisionHarness))
    (prompt_versions : List (Str × Str)) (settings : List (Str × Str))
    (harness_id : Str) (adapter : ModelCfg → AdapterOutcome) :
    Except Str (List ModelIO) :=
  match lookupKey harnesses harness_id with
  | none => Except.error (strOf "Harness not found: " ++ harness_id)
  | some harness =>
      let system_prompt := (lookupKey prompt_versions harness.prompt_version_id).getD []
      let user_prompt := serialize_harness harness
      match available_models settings with
      | [] => Except.ok []
      | _ =>
          Except.ok ((available_models settings).map
            (fun m => call_model m system_prompt user_prompt harness_id (adapter m)))

theorem call_model_status_cases (cfg : ModelCfg) (sp up hid : Str)
    (outcome : AdapterOutcome) :
    (call_model cfg sp up hid outcome).status = strOf "success" ∨
    (call_model cfg sp up hid outcome).status = strOf "timeout" ∨
    (call_model cfg sp up hid outcome).status = strOf "error" := by
  cases outcome with
  | success t =>
      cases hp : parse_structured_output t with
      | ok fields => left; simp [call_model, hp]
      | error e => right; right; simp [call_model, hp]
  | timeout t => right; left; rfl
  | raised m => right; right; rfl

theorem call_model_identity (cfg : ModelCfg) (sp up hid : Str)
    (outcome : AdapterOutcome) :
    (call_model cfg sp up hid outcome).model_provider = cfg.provider ∧
    (call_model cfg sp up hid outcome).model_name = cfg.model ∧
    (call_model cfg sp up hid outcome).harness_id = hid := by
  cases outcome with
  | success t => cases hp : parse_structured_output t <;> simp [call_model, hp]
  | timeout t => exact ⟨rfl, rfl, rfl⟩
  | raised m => exact ⟨rfl, rfl, rfl⟩

theorem run_eq_map (harnesses : List (Str × DecisionHarness))
    (prompt_versions settings : List (Str × Str)) (harness_id : Str)
    (adapter : ModelCfg → AdapterOutcome) (hh : DecisionHarness)
    (hfound : lookupKey harnesses harness_id = some hh) :
    ArenaService.run harnesses prompt_versions settings harness_id adapter =
      Except.ok ((available_models settings).map
        (fun m => call_model m ((lookupKey prompt_versions hh.prompt_version_id).getD [])
          (serialize_harness hh) harness_id (adapter m))) := by
  unfold ArenaService.run
  rw [hfound]
  cases havail : available_models settings with
  | nil => simp
  | cons a l => rfl

/-- C1: an Arena run on an existing harness produces exactly one invocation record
per configured-and-credentialed candidate model (N records for N candidates, in
catalog order), every record belongs to the run's harness and carries a terminal
status among `success`, `timeout`, `error`, and each record depends only on its own
model's adapter outcome — changing the outcomes of sibling models never removes or
changes it (failure isolation). -/
theorem arena_run_record_set (harnesses : List (Str × DecisionHarness))
    (prompt_versions settings : List (Str × Str)) (harness_id : Str)
    (adapter adapter' : ModelCfg → AdapterOutcome) (hh : DecisionHarness)
    (hfound : lookupKey harnesses harness_id = some hh) :
    ∃ recs recs',
      ArenaService.run harnesses prompt_versions settings harness_id adapter =
        Except.ok recs ∧
      ArenaService.run harnesses prompt_versions settings harness_id adapter' =
        Except.ok recs' ∧
      recs.length = (available_models settings).length ∧
      recs'.length = (available_models settings).length ∧
      (∀ r ∈ recs, r.harness_id = harness_id ∧
        (r.status = strOf "success" ∨ r.status = strOf "timeout" ∨
         r.status = strOf "error")) ∧
      recs.map (fun r => (r.model_provider, r.model_name)) =
        (available_models settings).map (fun m => (m.provider, m.model)) ∧
      (∀ i : Nat, (∀ m, (available_models settings).get? i = some m →
          adapter m = adapter' m) →
        recs.get? i = recs'.get? i) := by
  refine ⟨_, _,
    run_eq_map harnesses prompt_versions settings harness_id adapter hh hfound,
    run_eq_map harnesses prompt_versions settings harness_id adapter' hh hfound,
    List.length_map _ _, List.length_map _ _, ?_, ?_, ?_⟩
  · intro r hr
    rw [List.mem_map] at hr
    obtain ⟨m, _, rfl⟩ := hr
    exact ⟨(call_model_identity _ _ _ _ _).2.2, call_model_status_cases _ _ _ _ _⟩
  · rw [List.map_map]
    apply List.map_congr_left
    intro m _
    obtain ⟨h1, h2, _⟩ := call_model_identity m
      ((lookupKey prompt_versions hh.prompt_version_id).getD [])
      (serialize_harness hh) harness_id (adapter m)
    simp [h1, h2]
  · intro i hag
    rw [List.get?_map, List.get?_map]
    cases h : (available_models settings).get? i with
    | none => rfl
    | some m => simp [hag m h]

theorem arena_run_record_set_witness :
    (let wh : DecisionHarness := ⟨none, strOf "adhoc", none, none, none, none, strOf "pv1"⟩
     let hs : List (Str × DecisionHarness) := [(strOf "h1", wh)]
     let st : List (Str × Str) := [(strOf "anthropic_api_key", strOf "k")]
     let ad1 : ModelCfg → AdapterOutcome := fun _ => AdapterOutcome.timeout []
     let ad2 : ModelCfg → AdapterOutcome := fun _ => AdapterOutcome.raised (strOf "boom")
     lookupKey hs (strOf "h1") = some wh ∧
     ∃ recs recs',
       ArenaService.run hs [] st (strOf "h1") ad1 = Except.ok recs ∧
       ArenaService.run hs [] st (strOf "h1") ad2 = Except.ok recs' ∧
       recs.length = (available_models st).length ∧
       recs'.length = (available_models st).length ∧
       (∀ r ∈ recs, r.harness_id = strOf "h1" ∧
         (r.status = strOf "success" ∨ r.status = strOf "timeout" ∨
          r.status = strOf "error")) ∧
       recs.map (fun r => (r.model_provider, r.model_name)) =
         (available_models st).map (fun m => (m.provider, m.model)) ∧
       (∀ i : Nat, (∀ m, (available_models st).get? i = some m → ad1 m = ad2 m) →
         recs.get? i = recs'.get? i)) :=
  ⟨rfl, arena_run_record_set _ _ _ _ _ _ _ rfl⟩

/-- C3: an invocation whose adapter call exceeds the 60-second timeout finalizes
with status `timeout` (never `success`), whatever text the late call would have
produced, and its error message states the timeout duration
(`Timeout after 60s`, built from `MODEL_TIMEOUT = 60`). -/
theorem call_model_timeout_status (cfg : ModelCfg) (sp up hid lateText : Str) :
    (call_model cfg sp up hid (AdapterOutcome.timeout lateText)).status = strOf "timeout" ∧
    (call_model cfg sp up hid (AdapterOutcome.timeout lateText)).status ≠ strOf "success" ∧
    (call_model cfg sp up hid (AdapterOutcome.timeout lateText)).error_message =
      some (strOf "Timeout after " ++ natDecimal MODEL_TIMEOUT ++ strOf "s") ∧
    MODEL_TIMEOUT = 60 ∧
    strOf "Timeout after " ++ natDecimal MODEL_TIMEOUT ++ strOf "s" =
      strOf "Timeout after 60s" := by
  refine ⟨rfl, ?_, rfl, rfl, rfl⟩
  show strOf "timeout" ≠ strOf "success"
  decide

/-- C8: when the intersection of the catalog with the credentialed providers is
empty, a run on an existing harness returns the empty result list, not an error. -/
theorem arena_run_empty_candidates (harnesses : List (Str × DecisionHarness))
    (prompt_versions settings : List (Str × Str)) (harness_id : Str)
    (adapter : ModelCfg → AdapterOutcome) (hh : DecisionHarness)
    (hfound : lookupKey harnesses harness_id = some hh)
    (hempty : available_models settings = []) :
    ArenaService.run harnesses prompt_versions settings harness_id adapter =
      Except.ok [] := by
  rw [run_eq_map harnesses prompt_versions settings harness_id adapter hh hfound, hempty]
  rfl

theorem arena_run_empty_candidates_witness :
    (let wh : DecisionHarness := ⟨none, strOf "adhoc", none, none, none, none, strOf "pv1"⟩
     lookupKey [(strOf "h1", wh)] (strOf "h1") = some wh ∧
     available_models [] = [] ∧
     ArenaService.run [(strOf "h1", wh)] [] [] (strOf "h1")
       (fun _ => AdapterOutcome.timeout []) = Except.ok []) :=
  ⟨rfl, rfl, arena_run_empty_candidates _ _ _ _ _ _ rfl rfl⟩

/-- C10: a run on a harness id with no matching DecisionHarness raises
`Harness not found: <id>` and produces no invocation records (the error return
carries none). -/
theorem arena_run_harness_not_found (harnesses : List (Str × DecisionHarness))
    (prompt_versions settings : List (Str × Str)) (harness_id : Str)
    (adapter : ModelCfg → AdapterOutcome)
    (hmissing : lookupKey harnesses harness_id = none) :
    ArenaService.run harnesses prompt_versions settings harness_id adapter =
      Except.error (strOf "Harness not found: " ++ harness_id) := by
  unfold ArenaService.run
  rw [hmissing]

theorem arena_run_harness_not_found_witness :
    lookupKey ([] : List (Str × DecisionHarness)) (strOf "nope") = none ∧
    ArenaService.run [] [] [(strOf "anthropic_api_key", strOf "k")] (strOf "nope")
      (fun _ => AdapterOutcome.timeout []) =
      Except.error (strOf "Harness not found: " ++ strOf "nope") :=
  ⟨rfl, arena_run_harness_not_found _ _ _ _ _ rfl⟩

/-! ## Decision approval (`approve_decision` in `uteki/domains/index/api.py`)

The TOTP check, the SNB brokerage client, and order placement are external
collaborators, modelled by a validity flag, a `ClientResult` and an order oracle.
A raised `HTTPException` (invalid TOTP, position limit, or one propagated from the
client) aborts the endpoint before `create_log`: the `rejected` outcome therefore
carries no orders and no `DecisionLog`. A non-HTTP client failure is caught and
logged as a `skipped` execution result, with the log still created. -/

structure Allocation where
  etf : Option Str
  symbol : Option Str
  amount : Int
deriving DecidableEq, Repr

/-- `alloc.get("etf", alloc.get("symbol", ""))`. -/
def etfOf (a : Allocation) : Str := a.etf.getD (a.symbol.getD [])

inductive OrderOutcome where
  | ok (info : Str)
  | failed (err : Str)

inductive ExecEntry where
  | submitted (sym : Str) (amount : Int) (order : Str)
  | error (sym : Str) (amount : Int) (err : Str)
  | skipped (reason : Str)
deriving DecidableEq, Repr

structure DecisionLogRec where
  harness_id : Str
  user_action : Str
  executed_allocations : List Allocation
  execution_results : List ExecEntry
  user_notes : Option Str
deriving DecidableEq, Repr

inductive ClientResult where
  | ok (positions : List (Option Str))
  | httpError (code : Nat) (msg : Str)
  | failed (err : Str)

inductive ApproveOutcome where
  | rejected (code : Nat) (msg : Str)
  | completed (orders_attempted : List (Str × Int)) (log : DecisionLogRec)

/-- The per-allocation order loop: skip falsy symbols and non-positive amounts,
record `submitted`/`error` per order attempt; also returns the orders attempted. -/
def executeAllocations (orderEnv : Str → Int → OrderOutcome) :
    List Allocation → List ExecEntry × List (Str × Int)
  | [] => ([], [])
  | a :: rest =>
      let etf := etfOf a
      if etf = [] ∨ a.amount ≤ 0 then executeAllocations orderEnv rest
      else
        let tail := executeAllocations orderEnv rest
        match orderEnv etf a.amount with
        | OrderOutcome.ok info =>
            (ExecEntry.submitted etf a.amount info :: tail.1, (etf, a.amount) :: tail.2)
        | OrderOutcome.failed err =>
            (ExecEntry.error etf a.amount err :: tail.1, (etf, a.amount) :: tail.2)

/-- `approve_decision`: TOTP gate, then (when allocations are present) the
position-count constraint over the union of currently held symbols and the
allocation symbols — more than 3 distinct symbols rejects the whole approval with
HTTP 400 before any order — then the order loop and the `DecisionLog`. -/
def approve_decision (harness_id : Str) (totp_valid : Bool)
    (allocations : List Allocation) (notes : Option Str)
    (client : ClientResult) (orderEnv : Str → Int → OrderOutcome) : ApproveOutcome :=
  if !totp_valid then ApproveOutcome.rejected 403 (strOf "Invalid TOTP code")
  else
    match allocations with
    | [] =>
        ApproveOutcome.completed []
          ⟨harness_id, strOf "approved", [], [], notes⟩
    | _ =>
        match client with
        | ClientResult.httpError code msg => ApproveOutcome.rejected code msg
        | ClientResult.failed err =>
            ApproveOutcome.completed []
              ⟨harness_id, strOf "approved", allocations, [ExecEntry.skipped err], notes⟩
        | ClientResult.ok positions =>
            let new_symbols := allocations.map (fun a => some (etfOf a))
            let combined := (positions ++ new_symbols).dedup
            if combined.length > 3 then
              ApproveOutcome.rejected 400
                (strOf "Position limit exceeded: max 3 ETFs, would have "
                  ++ natDecimal combined.length)
            else
              let ex := executeAllocations orderEnv allocations
              ApproveOutcome.completed ex.2
                ⟨harness_id, strOf "approved", allocations, ex.1, notes⟩

/-- C6: an approval whose allocations would put the number of distinct held
symbols (existing positions united with allocation symbols) above 3 is rejected in
full: the outcome is the HTTP 400 rejection, which by construction places zero
orders and creates no DecisionLog (partial or otherwise). Positions are those the
brokerage client returned. -/
theorem approve_rejects_over_position_limit (harness_id : Str)
    (allocations : List Allocation) (notes : Option Str)
    (positions : List (Option Str)) (orderEnv : Str → Int → OrderOutcome)
    (hne : allocations ≠ [])
    (hcount :
      ((positions ++ allocations.map (fun a => some (etfOf a))).dedup).length > 3) :
    approve_decision harness_id true allocations notes
        (ClientResult.ok positions) orderEnv =
      ApproveOutcome.rejected 400
        (strOf "Position limit exceeded: max 3 ETFs, would have "
          ++ natDecimal
            ((positions ++ allocations.map (fun a => some (etfOf a))).dedup).length) := by
  unfold approve_decision
  cases allocations with
  | nil => exact absurd rfl hne
  | cons a rest =>
      dsimp only
      rw [if_pos hcount]
      rfl

theorem approve_rejects_over_position_limit_witness :
    (let allocs : List Allocation :=
      [⟨some (strOf "VTI"), none, 1⟩, ⟨some (strOf "QQQ"), none, 1⟩]
     let pos : List (Option Str) := [some (strOf "SPY"), some (strOf "IWM")]
     allocs ≠ [] ∧
     ((pos ++ allocs.map (fun a => some (etfOf a))).dedup).length > 3 ∧
     approve_decision (strOf "h1") true allocs none (ClientResult.ok pos)
         (fun _ _ => OrderOutcome.ok []) =
       ApproveOutcome.rejected 400
         (strOf "Position limit exceeded: max 3 ETFs, would have "
           ++ natDecimal ((pos ++ allocs.map (fun a => some (etfOf a))).dedup).length)) :=
  ⟨by decide, by decide,
   approve_rejects_over_position_limit _ _ _ _ _ (by decide) (by decide)⟩

/-! ## Robust price update (`DataService.robust_update_all`) and the scheduler's
`price_update` status (`trigger_schedule` in `uteki/domains/index/api.py`)

One watchlist symbol's external behaviour is a `SymbolData`: what `smart_backfill`
would do, whether `incremental_update_with_retry` ends in `success` after its
retries, how many records it writes, its error text, and the anomalies
`validate_prices` would find. -/

structure SymbolData where
  backfill_action : Option Nat
  update_ok : Bool
  update_records : Nat
  update_error : Str
  anomalies : List Str

structure RobustResults where
  success : List Str
  failed : List (Str × Str)
  backfilled : List (Str × Nat)
  anomalies : List Str
  total_records : Nat
deriving DecidableEq, Repr

/-- One iteration of the `robust_update_all` loop for one symbol: backfill first
(when enabled and applicable, skipping the incremental update), else the retried
incremental update, recording success or failure, then validation on success. -/
def robustStep (env : Str → SymbolData) (validate backfill : Bool)
    (acc : RobustResults) (sym : Str) : RobustResults :=
  let d := env sym
  match (if backfill then d.backfill_action else none) with
  | some r =>
      { acc with backfilled := acc.backfilled ++ [(sym, r)],
                 total_records := acc.total_records + r }
  | none =>
      if d.update_ok then
        let acc1 := { acc with success := acc.success ++ [sym],
                               total_records := acc.total_records + d.update_records }
        if validate then { acc1 with anomalies := acc1.anomalies ++ d.anomalies }
        else acc1
      else { acc with failed := acc.failed ++ [(sym, d.update_error)] }

/-- `DataService.robust_update_all` over the active watchlist symbols. -/
def robust_update_all (symbols : List Str) (env : Str → SymbolData)
    (validate backfill : Bool) : RobustResults :=
  symbols.foldl (robustStep env validate backfill) ⟨[], [], [], [], 0⟩

/-- The final status `trigger_schedule` records for a `price_update` run. -/
def price_update_status (r : RobustResults) : Str :=
  if r.failed.length > 0 then strOf "partial_failure"
  else if r.anomalies.length > 0 then strOf "success_with_warnings"
  else strOf "success"

/-- C7: a `price_update` run is recorded `partial_failure` whenever at least one
symbol failed after retry exhaustion (never plain `success`),
`success_with_warnings` when nothing failed but anomalies were found, and
`success` only when there were neither failures nor anomalies. -/
theorem price_update_status_reflects_outcome (symbols : List Str)
    (env : Str → SymbolData) (validate backfill : Bool) :
    ((robust_update_all symbols env validate backfill).failed ≠ [] →
      price_update_status (robust_update_all symbols env validate backfill) =
          strOf "partial_failure" ∧
      price_update_status (robust_update_all symbols env validate backfill) ≠
          strOf "success") ∧
    ((robust_update_all symbols env validate backfill).failed = [] →
      (robust_update_all symbols env validate backfill).anomalies ≠ [] →
      price_update_status (robust_update_all symbols env validate backfill) =
          strOf "success_with_warnings") ∧
    ((robust_update_all symbols env validate backfill).failed = [] →
      (robust_update_all symbols env validate backfill).anomalies = [] →
      price_update_status (robust_update_all symbols env validate backfill) =
          strOf "success") := by
  refine ⟨?_, ?_, ?_⟩
  · intro hfail
    have hpos : (robust_update_all symbols env validate backfill).failed.length > 0 :=
      List.length_pos.mpr hfail
    constructor
    · unfold price_update_status
      rw [if_pos hpos]
    · unfold price_update_status
      rw [if_pos hpos]
      decide
  · intro hfail hanom
    have h0 : (robust_update_all symbols env validate backfill).failed.length = 0 := by
      rw [hfail]; rfl
    have hpos : (robust_update_all symbols env validate backfill).anomalies.length > 0 :=
      List.length_pos.mpr hanom
    unfold price_update_status
    rw [if_neg (by omega), if_pos hpos]
  · intro hfail hanom
    have h0 : (robust_update_all symbols env validate backfill).failed.length = 0 := by
      rw [hfail]; rfl
    have h1 : (robust_update_all symbols env validate backfill).anomalies.length = 0 := by
      rw [hanom]; rfl
    unfold price_update_status
    rw [if_neg (by omega), if_neg (by omega)]

theorem price_update_status_reflects_outcome_witness :
    (let syms : List Str :=
      [strOf "SPY", strOf "QQQ", strOf "VTI", strOf "IWM", strOf "EFA"]
     let env : Str → SymbolData := fun s =>
       if s = strOf "VTI" ∨ s = strOf "IWM" then
         ⟨none, false, 0, strOf "fetch failed", []⟩
       else ⟨none, true, 10, [], []⟩
     (robust_update_all syms env true true).failed ≠ [] ∧
     (robust_update_all syms env true true).failed.length = 2 ∧
     (robust_update_all syms env true true).anomalies = [] ∧
     price_update_status (robust_update_all syms env true true) =
         strOf "partial_failure" ∧
     price_update_status (robust_update_all syms env true true) ≠ strOf "success") := by
  refine ⟨by decide, by decide, by decide, ?_, ?_⟩
  · exact ((price_update_status_reflects_outcome _ _ true true).1 (by decide)).1
  · exact ((price_update_status_reflects_outcome _ _ true true).1 (by decide)).2
